import Mathlib

/-!
Verification of the nozomi-sdk endpoint-discovery engine.

The development shallowly embeds the two revisions of the discovery code:

* namespace `Nozomi.Index` — the engine in `src/index.ts` (`findFastestEndpoints`,
  `fetchEndpointsFromUrl`, clamping, region deduplication, the auto-routed
  fallback).  Network I/O is replaced by oracles: a `probe : ℕ → ℕ → Time`
  giving the outcome of the j-th HTTP probe of the i-th candidate (a throwing
  or timing-out transport is the oracle returning `⊤`, the Infinity sentinel,
  exactly as the `catch` branches of `measurePing` produce), and a
  `fetched : Option (List EndpointConfig)` giving the outcome of
  `fetchEndpointsFromUrl` inside `getEndpointConfigs` (`none` = all attempts
  failed).  The `onResult` observer is called inside
  `try { options.onResult?.(result) } catch { /* ignore */ }` and its value is
  discarded, so it cannot affect the returned value and has no counterpart in
  the value-level embedding.  The `endpoint` path, `endpointsUrl` and `timeout`
  options only shape the HTTP requests the oracles stand for; `timeout` is
  still modelled because its clamping is observable.
* namespace `Nozomi.Part0` — the module-state revision (failure-cooldown map,
  manifest cache, `pingUrl`, `getEndpoints`).  The module-level mutable state
  is threaded explicitly; `Date.now()` is an explicit `now : ℤ` argument.

JavaScript numbers are modelled as rationals (`ℚ`), latencies as
`Time := WithTop ℚ` with `⊤` standing for `Infinity` (the code produces no
`NaN`/`-Infinity` latencies: `measurePing` returns either an elapsed duration
or `Infinity`).  `for (let i = 0; i < n; i++)` executes `⌈n⌉` iterations for
positive `n` and none otherwise (`jsLoopCount`); `slice(0, n)` keeps
`⌊n⌋` elements for positive `n` (`jsSliceCount`).  JavaScript exceptions never
escape the functions modelled here — every body is wrapped in `try/catch`
returning a fallback — so the total Lean functions return exactly the values
the caught code returns.
-/

namespace Nozomi

/-- A JS number used as a latency: a finite rational, or `⊤` for `Infinity`. -/
abbrev Time : Type := WithTop ℚ

/-- Number of iterations of a JS loop `for (let i = 0; i < q; i++)`:
the ceiling of `q`, and `0` when `q ≤ 0`. -/
def jsLoopCount (q : ℚ) : ℕ := (-((-q).floor)).toNat

/-- Number of elements kept by `Array.prototype.slice(0, q)`:
`q` truncated toward zero, and `0` when `q ≤ 0`. -/
def jsSliceCount (q : ℚ) : ℕ := q.floor.toNat

/-- Minimum of a list of latencies (`Math.min(...times)`); `⊤` on the empty list. -/
def listMin (ts : List Time) : Time := ts.foldr min ⊤

namespace Index

/-- `EndpointConfig.type` field (`'auto' | 'direct' | 'cloudflare'`). -/
inductive EndpointType where
  | auto
  | direct
  | cloudflare
deriving DecidableEq

/-- `interface EndpointConfig` of src/index.ts. -/
structure EndpointConfig where
  url : String
  region : String
  type : EndpointType
deriving DecidableEq

/-- `NOZOMI_AUTO_ENDPOINT` (src/index.ts line 24). -/
def NOZOMI_AUTO_ENDPOINT : String := "https://nozomi.temporal.xyz"

/-- `NOZOMI_ENDPOINTS` hardcoded fallback list (src/index.ts lines 27-47). -/
def NOZOMI_ENDPOINTS : List EndpointConfig :=
  [ ⟨NOZOMI_AUTO_ENDPOINT, "auto", .auto⟩,
    ⟨"https://pit1.nozomi.temporal.xyz", "pittsburgh", .direct⟩,
    ⟨"https://tyo1.nozomi.temporal.xyz", "tokyo", .direct⟩,
    ⟨"https://sgp1.nozomi.temporal.xyz", "singapore", .direct⟩,
    ⟨"https://ewr1.nozomi.temporal.xyz", "newark", .direct⟩,
    ⟨"https://ams1.nozomi.temporal.xyz", "amsterdam", .direct⟩,
    ⟨"https://fra2.nozomi.temporal.xyz", "frankfurt", .direct⟩,
    ⟨"https://ash1.nozomi.temporal.xyz", "ashburn", .direct⟩,
    ⟨"https://lax1.nozomi.temporal.xyz", "los-angeles", .direct⟩,
    ⟨"https://lon1.nozomi.temporal.xyz", "london", .direct⟩,
    ⟨"https://pit.nozomi.temporal.xyz", "pittsburgh", .cloudflare⟩,
    ⟨"https://tyo.nozomi.temporal.xyz", "tokyo", .cloudflare⟩,
    ⟨"https://sgp.nozomi.temporal.xyz", "singapore", .cloudflare⟩,
    ⟨"https://ewr.nozomi.temporal.xyz", "newark", .cloudflare⟩,
    ⟨"https://ams.nozomi.temporal.xyz", "amsterdam", .cloudflare⟩,
    ⟨"https://fra.nozomi.temporal.xyz", "frankfurt", .cloudflare⟩,
    ⟨"https://ash.nozomi.temporal.xyz", "ashburn", .cloudflare⟩,
    ⟨"https://lax.nozomi.temporal.xyz", "los-angeles", .cloudflare⟩,
    ⟨"https://lon.nozomi.temporal.xyz", "london", .cloudflare⟩ ]

/-- `interface EndpointResult` (src/index.ts lines 49-55).  In this revision
`times` and `warmupTimes` are always populated, so they are plain lists. -/
structure EndpointResult where
  url : String
  region : String
  minTime : Time
  times : List Time
  warmupTimes : List Time
deriving DecidableEq

/-- `interface FindFastestOptions` (src/index.ts lines 57-67), the fields that
can influence the returned value.  `endpointsUrl`, `endpoint` and `onResult`
are absorbed by the oracles as explained in the header. -/
structure FindFastestOptions where
  endpoints : Option (List EndpointConfig) := none
  pingCount : Option ℚ := none
  topCount : Option ℚ := none
  timeout : Option ℚ := none
  warmupCount : Option ℚ := none
  includeAutoRouted : Option Bool := none

/-- `getEndpointConfigs` (src/index.ts lines 102-106):
`remote && remote.length > 0 ? remote : [...NOZOMI_ENDPOINTS]`, where
`fetched` is the value returned by `fetchEndpointsFromUrl`. -/
def getEndpointConfigs (fetched : Option (List EndpointConfig)) : List EndpointConfig :=
  match fetched with
  | some remote => if remote.isEmpty then NOZOMI_ENDPOINTS else remote
  | none => NOZOMI_ENDPOINTS

/-- Candidate resolution of `findFastestEndpoints` (src/index.ts lines 263-264):
`options.endpoints || await getEndpointConfigs(...)` (a present array, even an
empty one, is truthy and wins) followed by
`if (!Array.isArray(configs) || configs.length === 0) configs = [...NOZOMI_ENDPOINTS]`
(the non-array case is excluded by the embedding's types). -/
def resolveConfigs (options : FindFastestOptions)
    (fetched : Option (List EndpointConfig)) : List EndpointConfig :=
  let configs :=
    match options.endpoints with
    | some cs => cs
    | none => getEndpointConfigs fetched
  if configs.isEmpty then NOZOMI_ENDPOINTS else configs

/-- The configuration after the defaulting and clamping of
src/index.ts lines 267-272. -/
structure Sanitized where
  pingCount : ℚ
  topCount : ℚ
  timeout : ℚ
  warmupCount : ℚ
  includeAutoRouted : Bool

/-- Defaulting and clamping (src/index.ts lines 267-272):
`Math.max(lo, Math.min(hi, options.x ?? default))`; `??` replaces only an
absent value, never `0`. -/
def sanitize (options : FindFastestOptions) : Sanitized where
  pingCount := max 1 (min 20 (options.pingCount.getD 5))
  topCount := max 1 (min 10 (options.topCount.getD 2))
  timeout := max 1000 (min 30000 (options.timeout.getD 5000))
  warmupCount := max 0 (min 5 (options.warmupCount.getD 2))
  includeAutoRouted := options.includeAutoRouted.getD true

/-- `pingEndpoint` (src/index.ts lines 124-143): `warmupCount` sequential
warmup probes, then `pingCount` measurement probes, then
`minTime = times.length > 0 ? Math.min(...times) : Infinity`.
`probe j` is the outcome of this endpoint's j-th `measurePing` call
(warmups first). -/
def pingEndpoint (config : EndpointConfig) (pingCount warmupCount : ℚ)
    (probe : ℕ → Time) : EndpointResult :=
  let w := jsLoopCount warmupCount
  let warmupTimes := (List.range w).map probe
  let times := (List.range (jsLoopCount pingCount)).map (fun i => probe (w + i))
  { url := config.url
    region := config.region
    minTime := if times.isEmpty then ⊤ else listMin times
    times := times
    warmupTimes := warmupTimes }

/-- The `results` array of src/index.ts lines 275-281: one `pingEndpoint`
sample per candidate, in candidate order (`Promise.all` preserves order).
`probe i j` is the outcome of the j-th probe of candidate `i`. -/
def rawResults (options : FindFastestOptions) (fetched : Option (List EndpointConfig))
    (probe : ℕ → ℕ → Time) : List EndpointResult :=
  (resolveConfigs options fetched).enum.map (fun p =>
    pingEndpoint p.2 (sanitize options).pingCount (sanitize options).warmupCount (probe p.1))

/-- The comparator of `results.sort((a, b) => a.minTime - b.minTime)`. -/
def byMinTime (a b : EndpointResult) : Prop := a.minTime ≤ b.minTime

instance : DecidableRel byMinTime :=
  fun a b => inferInstanceAs (Decidable (a.minTime ≤ b.minTime))

/-- `validResults` (src/index.ts lines 284-286): drop unreachable samples
(`minTime !== Infinity && isFinite(minTime)`, which in this model is
`minTime ≠ ⊤`), then stable-sort ascending by `minTime`. -/
def validResults (options : FindFastestOptions) (fetched : Option (List EndpointConfig))
    (probe : ℕ → ℕ → Time) : List EndpointResult :=
  List.insertionSort byMinTime
    ((rawResults options fetched probe).filter (fun r => r.minTime ≠ ⊤))

/-- The synthetic auto-routed result
`{ url: NOZOMI_AUTO_ENDPOINT, region: 'auto', minTime: Infinity, times: [], warmupTimes: [] }`
(src/index.ts lines 306, 323, 328). -/
def autoFallback : EndpointResult :=
  { url := NOZOMI_AUTO_ENDPOINT, region := "auto", minTime := ⊤
    times := [], warmupTimes := [] }

/-- The region-deduplication loop of src/index.ts lines 293-301 / 308-316:
walk the list keeping each result whose region was not seen before. -/
def dedupByRegion : List EndpointResult → List String → List EndpointResult
  | [], _ => []
  | r :: rest, seen =>
    if r.region ∈ seen then dedupByRegion rest seen
    else r :: dedupByRegion rest (r.region :: seen)

/-- Ranking (src/index.ts lines 288-324).  With `includeAutoRouted`: drop
auto-region entries, deduplicate by region, truncate to `topCount`, then
append the measured auto entry or the synthetic fallback.  Otherwise:
deduplicate and truncate.  In both cases an empty outcome is replaced by the
single synthetic fallback. -/
def rank (valid : List EndpointResult) (topCount : ℚ) (includeAutoRouted : Bool) :
    List EndpointResult :=
  let topResults :=
    if includeAutoRouted then
      let nonAutoResults := valid.filter (fun r => r.region ≠ "auto")
      let deduped := dedupByRegion nonAutoResults []
      let tops := deduped.take (jsSliceCount topCount)
      let autoResult := valid.find? (fun r => r.region == "auto")
      tops ++ [autoResult.getD autoFallback]
    else
      (dedupByRegion valid []).take (jsSliceCount topCount)
  if topResults.isEmpty then [autoFallback] else topResults

/-- `findFastestEndpoints` (src/index.ts lines 260-330).  The outer
`try { ... } catch { return [autoFallback] }` cannot fire in the embedding:
every step is total, mirroring how every inner operation of the source is
itself wrapped to not throw. -/
def findFastestEndpoints (options : FindFastestOptions)
    (fetched : Option (List EndpointConfig)) (probe : ℕ → ℕ → Time) :
    List EndpointResult :=
  rank (validResults options fetched probe)
    (sanitize options).topCount (sanitize options).includeAutoRouted

/-- A primitive JSON value as JavaScript sees an untrusted manifest field. -/
inductive JsVal where
  | str : String → JsVal
  | num : ℚ → JsVal
  | boolean : Bool → JsVal
  | null : JsVal
deriving DecidableEq

/-- JavaScript truthiness of a possibly-absent value: `undefined`, `null`,
`''`, `0` and `false` are falsy. -/
def truthy : Option JsVal → Bool
  | none => false
  | some (.str s) => !s.isEmpty
  | some (.num q) => decide (q ≠ 0)
  | some (.boolean b) => b
  | some .null => false

/-- `typeof e.url === 'string'`. -/
def isStringVal : Option JsVal → Bool
  | some (.str _) => true
  | _ => false

/-- The string content of a string-valued field (only consulted after the
`typeof` guard has established the field is a string). -/
def asStringVal : Option JsVal → String
  | some (.str s) => s
  | _ => ""

/-- One untrusted manifest entry: its `url` and `region` fields, each possibly
absent or of the wrong type. -/
structure RawEntry where
  url : Option JsVal := none
  region : Option JsVal := none
deriving DecidableEq

/-- `s.startsWith(pre)`, computed on the character sequence of the strings. -/
def strStartsWith (s pre : String) : Bool := pre.toList.isPrefixOf s.toList

/-- The validation filter of `fetchEndpointsFromUrl` (src/index.ts line 91):
`e?.url && typeof e.url === 'string' && e.url.startsWith('https://') && e.region`. -/
def keepEntry (e : RawEntry) : Bool :=
  truthy e.url && isStringVal e.url &&
    strStartsWith (asStringVal e.url) "https://" && truthy e.region

/-- What one fetch attempt of `fetchEndpointsFromUrl` observes. -/
inductive FetchOutcome where
  | err
  | notOk
  | ok (endpoints : Option (List RawEntry))

/-- The per-attempt body of `fetchEndpointsFromUrl` (src/index.ts lines 82-97):
a thrown fetch/parse (`err`), a non-2xx response (`notOk`) and a body whose
`endpoints` field is absent or not an array all fail the attempt; otherwise
the entries are filtered by `keepEntry` and the attempt succeeds only when at
least one valid entry remains. -/
def parseAttempt : FetchOutcome → Option (List RawEntry)
  | .err => none
  | .notOk => none
  | .ok none => none
  | .ok (some entries) =>
    let valid := entries.filter keepEntry
    if valid.isEmpty then none else some valid

/-- The retry loop of `fetchEndpointsFromUrl` (src/index.ts lines 76-98),
starting at attempt number `attempt` with `fuel` attempts still allowed:
`if (attempt > 0) await sleep(attempt * 500)` then one attempt, returning on
the first success.  Yields the result, the list of sleep durations (ms)
performed, and the number of attempts made. -/
def fetchLoop (outcomes : ℕ → FetchOutcome) :
    ℕ → ℕ → Option (List RawEntry) × List ℕ × ℕ
  | _, 0 => (none, [], 0)
  | attempt, fuel + 1 =>
    let sleeps := if 0 < attempt then [attempt * 500] else []
    match parseAttempt (outcomes attempt) with
    | some valid => (some valid, sleeps, 1)
    | none =>
      let rest := fetchLoop outcomes (attempt + 1) fuel
      (rest.1, sleeps ++ rest.2.1, rest.2.2 + 1)

/-- `fetchEndpointsFromUrl` (src/index.ts lines 75-100):
`for (let attempt = 0; attempt <= retries; attempt++)`, i.e. at most
`retries + 1` attempts starting at attempt `0`.  `outcomes i` is what the
i-th attempt observes on the wire. -/
def fetchEndpointsFromUrl (outcomes : ℕ → FetchOutcome) (retries : ℕ) :
    Option (List RawEntry) × List ℕ × ℕ :=
  fetchLoop outcomes 0 (retries + 1)

end Index

namespace Part0

/-- `FAILURE_COOLDOWN_MS` (part_000 line 41). -/
def FAILURE_COOLDOWN_MS : ℤ := 60 * 1000

/-- The module-level `failedEndpoints` map (part_000 line 40), as the partial
function url ↦ failure timestamp that a JS `Map<string, number>` denotes. -/
abbrev CooldownMap := String → Option ℤ

/-- The empty `failedEndpoints` map (module initialisation, also
`failedEndpoints.clear()`). -/
def emptyCooldown : CooldownMap := fun _ => none

/-- `failedEndpoints.delete(url)`. -/
def mapDelete (url : String) (m : CooldownMap) : CooldownMap :=
  fun k => if k = url then none else m k

/-- `markEndpointFailed` (part_000 lines 59-61): `failedEndpoints.set(url, Date.now())`. -/
def markEndpointFailed (now : ℤ) (url : String) (m : CooldownMap) : CooldownMap :=
  fun k => if k = url then some now else m k

/-- `markEndpointSucceeded` (part_000 lines 66-68): `failedEndpoints.delete(url)`. -/
def markEndpointSucceeded (url : String) (m : CooldownMap) : CooldownMap :=
  mapDelete url m

/-- `isEndpointInCooldown` (part_000 lines 46-54).  The guard
`const failedAt = failedEndpoints.get(url); if (!failedAt) return false;` is
a JS truthiness test: it fires both when the key is absent and when the
recorded timestamp is the falsy number `0`, and in both cases nothing is
deleted.  The query itself mutates the map (it deletes an expired entry), so
it returns the answer and the updated map. -/
def isEndpointInCooldown (now : ℤ) (url : String) (m : CooldownMap) :
    Bool × CooldownMap :=
  match m url with
  | none => (false, m)
  | some failedAt =>
    if failedAt = 0 then (false, m)
    else if FAILURE_COOLDOWN_MS < now - failedAt then (false, mapDelete url m)
    else (true, m)

/-- One mutation of the `failedEndpoints` map, for reasoning about call
histories: `markEndpointFailed(url)` performed at wall-clock time `t`,
`markEndpointSucceeded(url)`, or `clearCache()` (part_000 lines 493-497,
which clears the map). -/
inductive CooldownEvent where
  | failed (url : String) (t : ℤ)
  | succeeded (url : String)
  | cleared
deriving DecidableEq

/-- Apply one recorded mutation to the `failedEndpoints` map. -/
def applyEvent (m : CooldownMap) : CooldownEvent → CooldownMap
  | .failed url t => markEndpointFailed t url m
  | .succeeded url => markEndpointSucceeded url m
  | .cleared => emptyCooldown

/-- The `failedEndpoints` map after a history of mutations, starting from the
empty module-initial map. -/
def runEvents (es : List CooldownEvent) : CooldownMap :=
  es.foldl applyEvent emptyCooldown

/-- Specification device for the cooldown claim: the timestamp of the last
`markEndpointFailed(url)` in the history that is not followed by a later
`markEndpointSucceeded(url)` or `clearCache()`, if any. -/
def lastFailureTime (url : String) (es : List CooldownEvent) : Option ℤ :=
  es.foldl
    (fun acc e =>
      match e with
      | .failed u t => if u = url then some t else acc
      | .succeeded u => if u = url then none else acc
      | .cleared => none)
    none

/-- `interface EndpointResult` of part_000 (lines 225-234): no `region` field,
and an optional `skipped` marker (absent = not skipped). -/
structure EndpointResult where
  url : String
  minTime : Time
  times : List Time
  warmupTimes : List Time
  skipped : Bool := false
deriving DecidableEq

/-- `pingUrl` (part_000 lines 298-337): skip (and do not probe) an endpoint in
cooldown; otherwise run the warmup and measurement loops, compute `minTime`,
and record failure (`minTime === Infinity || times.every(t => t === Infinity)`)
or success in the cooldown map.  `probe j` is the outcome of the j-th
`measurePing` call this run would issue (warmups first); in the skipped branch
it is never consulted. -/
def pingUrl (url : String) (pingCount warmupCount : ℚ) (probe : ℕ → Time)
    (now : ℤ) (m : CooldownMap) : EndpointResult × CooldownMap :=
  let cool := isEndpointInCooldown now url m
  if cool.1 then
    ({ url := url, minTime := ⊤, times := [], warmupTimes := [], skipped := true },
      cool.2)
  else
    let w := jsLoopCount warmupCount
    let warmupTimes := (List.range w).map probe
    let times := (List.range (jsLoopCount pingCount)).map (fun i => probe (w + i))
    let minTime := if times.isEmpty then ⊤ else listMin times
    let m2 :=
      if minTime = ⊤ ∨ times.all (fun t => t == ⊤) then
        markEndpointFailed now url cool.2
      else markEndpointSucceeded url cool.2
    ({ url := url, minTime := minTime, times := times, warmupTimes := warmupTimes },
      m2)

/-- `NOZOMI_AUTO_ENDPOINT` (part_000 line 195). -/
def NOZOMI_AUTO_ENDPOINT : String := "https://nozomi.temporal.xyz"

/-- `NOZOMI_ENDPOINTS` hardcoded fallback URL list (part_000 lines 198-223). -/
def NOZOMI_ENDPOINTS : List String :=
  [ NOZOMI_AUTO_ENDPOINT,
    "https://pit1.nozomi.temporal.xyz",
    "https://tyo1.nozomi.temporal.xyz",
    "https://sgp1.nozomi.temporal.xyz",
    "https://ewr1.nozomi.temporal.xyz",
    "https://ams1.nozomi.temporal.xyz",
    "https://fra2.nozomi.temporal.xyz",
    "https://ash1.nozomi.temporal.xyz",
    "https://lax1.nozomi.temporal.xyz",
    "https://lon1.nozomi.temporal.xyz",
    "https://pit.nozomi.temporal.xyz",
    "https://tyo.nozomi.temporal.xyz",
    "https://sgp.nozomi.temporal.xyz",
    "https://ewr.nozomi.temporal.xyz",
    "https://ams.nozomi.temporal.xyz",
    "https://fra.nozomi.temporal.xyz",
    "https://ash.nozomi.temporal.xyz",
    "https://lax.nozomi.temporal.xyz",
    "https://lon.nozomi.temporal.xyz" ]

/-- `CACHE_TTL_MS = 5 * 60 * 1000` (part_000 line 37). -/
def CACHE_TTL_MS : ℤ := 5 * 60 * 1000

/-- The module-level manifest cache (part_000 lines 35-36):
`cachedEndpoints` and `cacheExpiry`. -/
structure CacheState where
  cachedEndpoints : Option (List String)
  cacheExpiry : ℤ
deriving DecidableEq

/-- The fresh-cache guard of `getEndpoints` (part_000 line 165):
`cachedEndpoints && cachedEndpoints.length > 0 && now < cacheExpiry`. -/
def cacheFresh (st : CacheState) (now : ℤ) : Bool :=
  match st.cachedEndpoints with
  | some l => !l.isEmpty && decide (now < st.cacheExpiry)
  | none => false

/-- The tail of `getEndpoints` after a failed remote fetch
(part_000 lines 183-191): the stale cache when it is non-empty, else the
hardcoded fallback.  The `Bool` component records that a network fetch was
performed on this path. -/
def staleOrHardcoded (st : CacheState) : List String × Bool × CacheState :=
  match st.cachedEndpoints with
  | some l => if l.isEmpty then (NOZOMI_ENDPOINTS, true, st) else (l, true, st)
  | none => (NOZOMI_ENDPOINTS, true, st)

/-- `getEndpoints` (part_000 lines 160-192).  `fetchResult` is what the
`fetchEndpoints(url)` call would return (`none` = all attempts failed); the
`Bool` in the result tells whether that network call was performed.  Returns
the endpoint list and the updated module cache. -/
def getEndpoints (now : ℤ) (fetchResult : Option (List String)) (st : CacheState) :
    List String × Bool × CacheState :=
  if cacheFresh st now then (st.cachedEndpoints.getD [], false, st)
  else
    match fetchResult with
    | some remote =>
      if remote.isEmpty then staleOrHardcoded st
      else (remote, true, ⟨some remote, now + CACHE_TTL_MS⟩)
    | none => staleOrHardcoded st

end Part0

instance : IsTotal Index.EndpointResult Index.byMinTime :=
  ⟨fun a b => le_total a.minTime b.minTime⟩

instance : IsTrans Index.EndpointResult Index.byMinTime :=
  ⟨fun _ _ _ hab hbc => le_trans hab hbc⟩

/-! ### Helper lemmas -/

theorem listMin_eq_top_iff (ts : List Time) : listMin ts = ⊤ ↔ ∀ t ∈ ts, t = ⊤ := by
  induction ts with
  | nil => simp [listMin]
  | cons a l ih =>
    simp only [listMin, List.foldr_cons, min_eq_top, List.mem_cons]
    rw [show List.foldr min ⊤ l = listMin l from rfl, ih]
    constructor
    · rintro ⟨ha, hl⟩ t (rfl | ht)
      · exact ha
      · exact hl t ht
    · intro h
      exact ⟨h a (Or.inl rfl), fun t ht => h t (Or.inr ht)⟩

theorem pingEndpoint_minTime_top (c : Index.EndpointConfig) (pc wc : ℚ)
    (pr : ℕ → Time) (h : ∀ j, pr j = ⊤) :
    (Index.pingEndpoint c pc wc pr).minTime = ⊤ := by
  simp only [Index.pingEndpoint]
  split
  · rfl
  · rw [listMin_eq_top_iff]
    intro t ht
    obtain ⟨j, _, rfl⟩ := List.mem_map.mp ht
    exact h _

theorem rank_nil (t : ℚ) (b : Bool) : Index.rank [] t b = [Index.autoFallback] := by
  cases b <;> simp [Index.rank, Index.dedupByRegion]

theorem if_isEmpty_ne_nil (l : List Index.EndpointResult) :
    (if l.isEmpty then [Index.autoFallback] else l) ≠ [] := by
  cases hl : l.isEmpty with
  | true => simp
  | false =>
    simp only [hl, Bool.false_eq_true, if_false]
    intro hnil
    rw [hnil] at hl
    simp at hl

theorem dedupByRegion_sublist (l : List Index.EndpointResult) :
    ∀ seen : List String, (Index.dedupByRegion l seen).Sublist l := by
  induction l with
  | nil => intro seen; simp [Index.dedupByRegion]
  | cons a l ih =>
    intro seen
    unfold Index.dedupByRegion
    split
    · exact (ih seen).trans (List.sublist_cons_self a l)
    · exact (ih _).cons₂ a

theorem dedupByRegion_not_mem_seen (l : List Index.EndpointResult) :
    ∀ (seen : List String) (r : Index.EndpointResult),
      r ∈ Index.dedupByRegion l seen → r.region ∉ seen := by
  induction l with
  | nil => intro seen r hr; simp [Index.dedupByRegion] at hr
  | cons a l ih =>
    intro seen r hr
    unfold Index.dedupByRegion at hr
    split at hr
    · exact ih seen r hr
    · next hmem =>
      rcases List.mem_cons.mp hr with rfl | hr2
      · exact hmem
      · intro hs
        exact ih _ r hr2 (List.mem_cons_of_mem _ hs)

theorem dedupByRegion_regions_nodup (l : List Index.EndpointResult) :
    ∀ seen : List String,
      ((Index.dedupByRegion l seen).map (fun r => r.region)).Nodup := by
  induction l with
  | nil => intro seen; simp [Index.dedupByRegion]
  | cons a l ih =>
    intro seen
    unfold Index.dedupByRegion
    split
    · exact ih seen
    · next hmem =>
      simp only [List.map_cons, List.nodup_cons]
      refine ⟨?_, ih _⟩
      intro hmap
      obtain ⟨r, hr, hreq⟩ := List.mem_map.mp hmap
      exact dedupByRegion_not_mem_seen l _ r hr
        (by rw [hreq]; exact List.mem_cons_self _ _)

theorem dedupByRegion_find? (l : List Index.EndpointResult) :
    ∀ (seen : List String) (r : Index.EndpointResult),
      r ∈ Index.dedupByRegion l seen →
      l.find? (fun x => x.region == r.region) = some r := by
  induction l with
  | nil => intro seen r hr; simp [Index.dedupByRegion] at hr
  | cons a l ih =>
    intro seen r hr
    unfold Index.dedupByRegion at hr
    split at hr
    · next hmem =>
      have hne : a.region ≠ r.region := by
        intro he
        exact dedupByRegion_not_mem_seen l seen r hr (he ▸ hmem)
      rw [List.find?_cons_of_neg _ (by simpa using hne)]
      exact ih seen r hr
    · next hmem =>
      rcases List.mem_cons.mp hr with rfl | hr2
      · rw [List.find?_cons_of_pos _ (by simp)]
      · have hne : a.region ≠ r.region := by
          intro he
          exact dedupByRegion_not_mem_seen l _ r hr2 (he ▸ List.mem_cons_self _ _)
        rw [List.find?_cons_of_neg _ (by simpa using hne)]
        exact ih _ r hr2

theorem find?_filter_eq {α : Type} (p q : α → Bool) (l : List α)
    (h : ∀ x, p x = true → q x = true) :
    (l.filter q).find? p = l.find? p := by
  induction l with
  | nil => rfl
  | cons a l ih =>
    cases hq : q a with
    | true =>
      rw [List.filter_cons_of_pos hq]
      cases hp : p a with
      | true => rw [List.find?_cons_of_pos _ hp, List.find?_cons_of_pos _ hp]
      | false =>
        rw [List.find?_cons_of_neg _ (by simp [hp]), List.find?_cons_of_neg _ (by simp [hp])]
        exact ih
    | false =>
      have hp : p a = false := by
        cases hpa : p a
        · rfl
        · rw [h a hpa] at hq
          exact absurd hq (by simp)
      rw [List.filter_cons_of_neg (by simp [hq]), List.find?_cons_of_neg _ (by simp [hp])]
      exact ih

theorem validResults_sorted (options : Index.FindFastestOptions)
    (fetched : Option (List Index.EndpointConfig)) (probe : ℕ → ℕ → Time) :
    List.Sorted Index.byMinTime (Index.validResults options fetched probe) :=
  List.sorted_insertionSort _ _

theorem rank_true_eq (valid : List Index.EndpointResult) (t : ℚ) :
    Index.rank valid t true =
      (Index.dedupByRegion (valid.filter (fun r => r.region ≠ "auto")) []).take
          (jsSliceCount t) ++
        [(valid.find? (fun r => r.region == "auto")).getD Index.autoFallback] := by
  unfold Index.rank
  simp

theorem rank_false_eq (valid : List Index.EndpointResult) (t : ℚ) :
    Index.rank valid t false =
      if ((Index.dedupByRegion valid []).take (jsSliceCount t)).isEmpty then
        [Index.autoFallback]
      else (Index.dedupByRegion valid []).take (jsSliceCount t) := by
  unfold Index.rank
  simp

theorem clamp_facts (lo hi q : ℚ) (hlohi : lo ≤ hi) :
    (q < lo → max lo (min hi q) = lo) ∧ (hi < q → max lo (min hi q) = hi) ∧
    (lo ≤ q → q ≤ hi → max lo (min hi q) = q) := by
  refine ⟨fun h => ?_, fun h => ?_, fun h1 h2 => ?_⟩
  · rw [min_eq_right (le_of_lt (lt_of_lt_of_le h hlohi))]
    exact max_eq_left (le_of_lt h)
  · rw [min_eq_left (le_of_lt h)]
    exact max_eq_right hlohi
  · rw [min_eq_right h2]
    exact max_eq_right h1

theorem fetchLoop_attempts_le (outcomes : ℕ → Index.FetchOutcome) :
    ∀ fuel attempt : ℕ, (Index.fetchLoop outcomes attempt fuel).2.2 ≤ fuel := by
  intro fuel
  induction fuel with
  | zero => intro attempt; simp [Index.fetchLoop]
  | succ n ih =>
    intro attempt
    unfold Index.fetchLoop
    cases hp : Index.parseAttempt (outcomes attempt) with
    | some v => simp [hp]
    | none =>
      simp only [hp]
      exact Nat.succ_le_succ (ih _)

theorem filterMap_range'_pos (m : ℕ) : ∀ s : ℕ, 0 < s →
    (List.range' s m).filterMap (fun k => if 0 < k then some (k * 500) else none) =
      (List.range' s m).map (fun k => k * 500) := by
  induction m with
  | zero => intro s _; rfl
  | succ m ih =>
    intro s hs
    rw [List.range'_succ, List.filterMap_cons, List.map_cons]
    simp only [if_pos hs]
    rw [ih (s + 1) (Nat.succ_pos s)]

theorem filterMap_range_pos (n : ℕ) :
    (List.range n).filterMap (fun k => if 0 < k then some (k * 500) else none) =
      ((List.range n).drop 1).map (fun k => k * 500) := by
  cases n with
  | zero => rfl
  | succ m =>
    have h1 : List.range (m + 1) = 0 :: List.range' 1 m := by
      rw [List.range_eq_range', List.range'_succ]
    rw [h1, List.filterMap_cons, List.drop_succ_cons, List.drop_zero]
    simp only [lt_irrefl, if_false]
    exact filterMap_range'_pos m 1 Nat.one_pos

theorem fetchLoop_sleeps (outcomes : ℕ → Index.FetchOutcome) :
    ∀ fuel attempt : ℕ,
      (Index.fetchLoop outcomes attempt fuel).2.1 =
        (List.range' attempt (Index.fetchLoop outcomes attempt fuel).2.2).filterMap
          (fun k => if 0 < k then some (k * 500) else none) := by
  intro fuel
  induction fuel with
  | zero => intro attempt; simp [Index.fetchLoop]
  | succ n ih =>
    intro attempt
    unfold Index.fetchLoop
    cases hp : Index.parseAttempt (outcomes attempt) with
    | some v =>
      simp only [hp]
      by_cases ha : 0 < attempt
      · simp [List.range'_succ, if_pos ha]
      · simp [List.range'_succ, if_neg ha]
    | none =>
      simp only [hp, List.range'_succ, List.filterMap_cons]
      by_cases ha : 0 < attempt
      · simp only [if_pos ha]
        rw [ih (attempt + 1)]
        rfl
      · simp only [if_neg ha]
        rw [ih (attempt + 1)]
        rfl

theorem fetchLoop_first_success (outcomes : ℕ → Index.FetchOutcome) :
    ∀ (fuel attempt j : ℕ) (v : List Index.RawEntry), j < fuel →
      Index.parseAttempt (outcomes (attempt + j)) = some v →
      (∀ i < j, Index.parseAttempt (outcomes (attempt + i)) = none) →
      (Index.fetchLoop outcomes attempt fuel).1 = some v ∧
        (Index.fetchLoop outcomes attempt fuel).2.2 = j + 1 := by
  intro fuel
  induction fuel with
  | zero => intro attempt j v hj; exact absurd hj (Nat.not_lt_zero j)
  | succ n ih =>
    intro attempt j v hj hsv hprev
    cases j with
    | zero =>
      rw [Nat.add_zero] at hsv
      unfold Index.fetchLoop
      simp [hsv]
    | succ m =>
      have h0 : Index.parseAttempt (outcomes attempt) = none := by
        have := hprev 0 (Nat.succ_pos m)
        rwa [Nat.add_zero] at this
      have hrec := ih (attempt + 1) m v (Nat.lt_of_succ_lt_succ hj)
        (by rw [show attempt + 1 + m = attempt + (m + 1) from by omega]; exact hsv)
        (fun i hi => by
          rw [show attempt + 1 + i = attempt + (i + 1) from by omega]
          exact hprev (i + 1) (Nat.succ_lt_succ hi))
      unfold Index.fetchLoop
      simp only [h0]
      exact ⟨hrec.1, by rw [hrec.2]⟩

theorem fetchLoop_none_exhausts (outcomes : ℕ → Index.FetchOutcome) :
    ∀ fuel attempt : ℕ, (Index.fetchLoop outcomes attempt fuel).1 = none →
      (Index.fetchLoop outcomes attempt fuel).2.2 = fuel := by
  intro fuel
  induction fuel with
  | zero => intro attempt _; rfl
  | succ n ih =>
    intro attempt h
    unfold Index.fetchLoop at h ⊢
    cases hp : Index.parseAttempt (outcomes attempt) with
    | some v =>
      rw [hp] at h
      exact Option.noConfusion (show some v = none from h)
    | none =>
      rw [hp] at h
      have h2 : (Index.fetchLoop outcomes (attempt + 1) n).1 = none := h
      show (Index.fetchLoop outcomes (attempt + 1) n).2.2 + 1 = n + 1
      rw [ih _ h2]

/-! ### Claim theorems -/

/-- Claim C1: for every input options value (the embedding quantifies over all
well-typed option records; a malformed or absent candidate list falls back to
the hardcoded endpoints), every transport behaviour (a throwing or timing-out
transport is the probe oracle returning `⊤`, exactly what the catch branches
of `measurePing` produce) and any observer callback (whose exceptions the
source discards, so it has no effect on the value), `findFastestEndpoints`
never raises — it is a total function of its inputs — and returns a non-empty
list of `EndpointResult`. -/
theorem claim_C1_findFastestEndpoints_total_and_nonempty
    (options : Index.FindFastestOptions)
    (fetched : Option (List Index.EndpointConfig)) (probe : ℕ → ℕ → Time) :
    Index.findFastestEndpoints options fetched probe ≠ [] :=
  if_isEmpty_ne_nil _

/-- Claim C2: if every probe of every candidate endpoint returns the
unreachable sentinel `⊤` (Infinity), `findFastestEndpoints` returns exactly
one result: the auto-routed endpoint (`NOZOMI_AUTO_ENDPOINT`, region
`"auto"`) with `minTime = ⊤`. -/
theorem claim_C2_all_unreachable_yields_single_auto
    (options : Index.FindFastestOptions)
    (fetched : Option (List Index.EndpointConfig)) (probe : ℕ → ℕ → Time)
    (h : ∀ i j, probe i j = ⊤) :
    Index.findFastestEndpoints options fetched probe =
      [{ url := Index.NOZOMI_AUTO_ENDPOINT, region := "auto", minTime := ⊤,
         times := [], warmupTimes := [] }] := by
  have hvalid : Index.validResults options fetched probe = [] := by
    unfold Index.validResults
    have hf : (Index.rawResults options fetched probe).filter
        (fun r => r.minTime ≠ ⊤) = [] := by
      rw [List.filter_eq_nil_iff]
      intro r hr
      obtain ⟨p, _, rfl⟩ := List.mem_map.mp hr
      simp [pingEndpoint_minTime_top _ _ _ _ (fun j => h p.1 j)]
    rw [hf]
    rfl
  rw [Index.findFastestEndpoints, hvalid, rank_nil]
  rfl

/-- Claim C3: whenever `includeAutoRouted` is not disabled (it defaults to
true), the returned list ends with an entry of region `"auto"`: a measured
valid result when the auto endpoint responded, otherwise the synthetic
fallback with `minTime = ⊤` — regardless of whether the auto endpoint was
among the `topCount` fastest. -/
theorem claim_C3_auto_entry_always_last
    (options : Index.FindFastestOptions)
    (fetched : Option (List Index.EndpointConfig)) (probe : ℕ → ℕ → Time)
    (h : options.includeAutoRouted ≠ some false) :
    ∃ e, (Index.findFastestEndpoints options fetched probe).getLast? = some e ∧
      e.region = "auto" ∧
      (e ∈ Index.validResults options fetched probe ∨
        (e = Index.autoFallback ∧
          ∀ r ∈ Index.validResults options fetched probe, r.region ≠ "auto")) := by
  have hb : (Index.sanitize options).includeAutoRouted = true := by
    cases hopt : options.includeAutoRouted with
    | none => simp [Index.sanitize, hopt]
    | some b =>
      cases b
      · exact absurd hopt h
      · simp [Index.sanitize, hopt]
  unfold Index.findFastestEndpoints
  rw [hb, rank_true_eq, List.getLast?_concat]
  cases hfind : (Index.validResults options fetched probe).find?
      (fun r => r.region == "auto") with
  | none =>
    refine ⟨Index.autoFallback, rfl, rfl, Or.inr ⟨rfl, fun r hr => ?_⟩⟩
    simpa using List.find?_eq_none.mp hfind r hr
  | some a =>
    refine ⟨a, rfl, ?_, Or.inl (List.mem_of_find?_eq_some hfind)⟩
    simpa using List.find?_some hfind

/-- Concrete instantiation of claim C3: with default options (auto inclusion
defaulted on) the returned list ends with an auto-region entry. -/
theorem claim_C3_witness :
    ({} : Index.FindFastestOptions).includeAutoRouted ≠ some false ∧
      ∃ e, (Index.findFastestEndpoints {} (some [])
              (fun _ _ => (⊤ : Time))).getLast? = some e ∧
        e.region = "auto" ∧
        (e ∈ Index.validResults {} (some []) (fun _ _ => (⊤ : Time)) ∨
          (e = Index.autoFallback ∧
            ∀ r ∈ Index.validResults {} (some []) (fun _ _ => (⊤ : Time)),
              r.region ≠ "auto")) :=
  ⟨by simp, claim_C3_auto_entry_always_last {} (some []) _ (by simp)⟩

/-- Claim C4: in every returned list, the non-auto entries carry pairwise
distinct regions; each retained non-auto entry is the first (lowest-latency)
occurrence of its region in the latency-sorted valid list; and the
deduplicated non-auto entries are truncated to `topCount`. -/
theorem claim_C4_dedup_by_region
    (options : Index.FindFastestOptions)
    (fetched : Option (List Index.EndpointConfig)) (probe : ℕ → ℕ → Time) :
    (((Index.findFastestEndpoints options fetched probe).filter
        (fun r => r.region ≠ "auto")).map (fun r => r.region)).Nodup ∧
    (∀ r ∈ Index.findFastestEndpoints options fetched probe, r.region ≠ "auto" →
      (Index.validResults options fetched probe).find?
        (fun x => x.region == r.region) = some r) ∧
    ((Index.findFastestEndpoints options fetched probe).filter
        (fun r => r.region ≠ "auto")).length ≤
      jsSliceCount (Index.sanitize options).topCount := by
  unfold Index.findFastestEndpoints
  cases hb : (Index.sanitize options).includeAutoRouted with
  | true =>
    rw [rank_true_eq]
    set V := Index.validResults options fetched probe with hV
    set tops := (Index.dedupByRegion (V.filter (fun r => r.region ≠ "auto")) []).take
      (jsSliceCount (Index.sanitize options).topCount) with htops
    set autoE := (V.find? (fun r => r.region == "auto")).getD Index.autoFallback
      with hautoE
    have hAutoRegion : autoE.region = "auto" := by
      cases hfind : V.find? (fun r => r.region == "auto") with
      | none => rw [hautoE, hfind]; rfl
      | some a =>
        rw [hautoE, hfind]
        simpa using List.find?_some hfind
    have htopsMem : ∀ r ∈ tops, r.region ≠ "auto" := by
      intro r hr
      have h1 : r ∈ Index.dedupByRegion (V.filter (fun x => x.region ≠ "auto")) [] :=
        List.mem_of_mem_take (htops ▸ hr)
      have h2 : r ∈ V.filter (fun x => x.region ≠ "auto") :=
        (dedupByRegion_sublist _ _).subset h1
      simpa using List.of_mem_filter h2
    have hfilter : (tops ++ [autoE]).filter (fun r => r.region ≠ "auto") = tops := by
      rw [List.filter_append]
      have h1 : tops.filter (fun r => r.region ≠ "auto") = tops :=
        List.filter_eq_self.mpr (fun r hr => by simpa using htopsMem r hr)
      have h2 : [autoE].filter (fun r => r.region ≠ "auto") = [] := by
        simp [hAutoRegion]
      rw [h1, h2, List.append_nil]
    refine ⟨?_, ?_, ?_⟩
    · rw [hfilter]
      have hsub : (tops.map (fun r => r.region)).Sublist
          ((Index.dedupByRegion (V.filter (fun x => x.region ≠ "auto")) []).map
            (fun r => r.region)) := by
        rw [htops]
        exact (List.take_sublist _ _).map _
      exact (dedupByRegion_regions_nodup _ _).sublist hsub
    · intro r hr hrne
      rcases List.mem_append.mp hr with hrt | hra
      · have h1 : r ∈ Index.dedupByRegion (V.filter (fun x => x.region ≠ "auto")) [] :=
          List.mem_of_mem_take (htops ▸ hrt)
        have h2 := dedupByRegion_find? _ _ r h1
        rw [find?_filter_eq _ _ _ ?_] at h2
        · exact h2
        · intro x hx
          have hxr : x.region = r.region := by simpa using hx
          simp [hxr, hrne]
      · rcases List.mem_singleton.mp hra with rfl
        exact absurd hAutoRegion hrne
    · rw [hfilter, htops]
      exact List.length_take_le _ _
  | false =>
    rw [rank_false_eq]
    set V := Index.validResults options fetched probe with hV
    set D := (Index.dedupByRegion V []).take
      (jsSliceCount (Index.sanitize options).topCount) with hD
    cases hemp : D.isEmpty with
    | true =>
      rw [if_pos rfl]
      refine ⟨by simp [Index.autoFallback], ?_, by simp [Index.autoFallback]⟩
      intro r hr hrne
      rcases List.mem_singleton.mp hr with rfl
      exact absurd rfl hrne
    | false =>
      rw [if_neg (by simp)]
      refine ⟨?_, ?_, ?_⟩
      · have hsub : ((D.filter (fun r => r.region ≠ "auto")).map (fun r => r.region)).Sublist
            ((Index.dedupByRegion V []).map (fun r => r.region)) := by
          rw [hD]
          exact ((List.filter_sublist _).trans (List.take_sublist _ _)).map _
        exact (dedupByRegion_regions_nodup _ _).sublist hsub
      · intro r hr hrne
        exact dedupByRegion_find? _ _ r (List.mem_of_mem_take (hD ▸ hr))
      · rw [hD]
        exact le_trans (List.length_filter_le _ _) (List.length_take_le _ _)

/-- Claim C5: the returned sequence is ordered ascending by `minTime`, except
for the mandatory trailing auto-routed entry when `includeAutoRouted` is true;
and on three endpoints with measurement samples [10,20], [5,15], [30,40]
(warmup 0, topCount 2, auto inclusion off, distinct regions) the returned
order is the [5,15]-endpoint then the [10,20]-endpoint. -/
theorem claim_C5_sorted_ascending :
    (∀ (options : Index.FindFastestOptions)
        (fetched : Option (List Index.EndpointConfig)) (probe : ℕ → ℕ → Time),
      (Index.sanitize options).includeAutoRouted = true →
      List.Sorted Index.byMinTime
        (Index.findFastestEndpoints options fetched probe).dropLast) ∧
    (∀ (options : Index.FindFastestOptions)
        (fetched : Option (List Index.EndpointConfig)) (probe : ℕ → ℕ → Time),
      (Index.sanitize options).includeAutoRouted = false →
      List.Sorted Index.byMinTime (Index.findFastestEndpoints options fetched probe)) ∧
    Index.findFastestEndpoints
        { endpoints := some
            [ ⟨"https://a.example", "r0", .direct⟩,
              ⟨"https://b.example", "r1", .direct⟩,
              ⟨"https://c.example", "r2", .direct⟩ ],
          pingCount := some 2, warmupCount := some 0, topCount := some 2,
          includeAutoRouted := some false }
        (some [])
        (fun i j =>
          if i = 0 then (if j = 0 then 10 else 20)
          else if i = 1 then (if j = 0 then 5 else 15)
          else (if j = 0 then 30 else 40)) =
      [ ⟨"https://b.example", "r1", 5, [5, 15], []⟩,
        ⟨"https://a.example", "r0", 10, [10, 20], []⟩ ] := by
  refine ⟨?_, ?_, by decide⟩
  · intro options fetched probe hb
    unfold Index.findFastestEndpoints
    rw [hb, rank_true_eq, List.dropLast_concat]
    have hchain : ((Index.dedupByRegion ((Index.validResults options fetched probe).filter
        (fun r => r.region ≠ "auto")) []).take
          (jsSliceCount (Index.sanitize options).topCount)).Sublist
        (Index.validResults options fetched probe) :=
      (List.take_sublist _ _).trans
        ((dedupByRegion_sublist _ _).trans (List.filter_sublist _))
    exact List.Pairwise.sublist hchain (validResults_sorted options fetched probe)
  · intro options fetched probe hb
    unfold Index.findFastestEndpoints
    rw [hb, rank_false_eq]
    split
    · exact List.sorted_singleton _
    · have hchain : ((Index.dedupByRegion (Index.validResults options fetched probe) []).take
          (jsSliceCount (Index.sanitize options).topCount)).Sublist
          (Index.validResults options fetched probe) :=
        (List.take_sublist _ _).trans (dedupByRegion_sublist _ _)
      exact List.Pairwise.sublist hchain (validResults_sorted options fetched probe)

/-- Concrete instantiation of claim C5: with auto inclusion off on the
three-endpoint example, the whole returned list is sorted ascending. -/
theorem claim_C5_witness :
    (Index.sanitize { includeAutoRouted := some false }).includeAutoRouted = false ∧
      List.Sorted Index.byMinTime
        (Index.findFastestEndpoints { includeAutoRouted := some false } (some [])
          (fun _ _ => (⊤ : Time))) :=
  ⟨rfl, claim_C5_sorted_ascending.2.1 { includeAutoRouted := some false } (some []) _ rfl⟩

/-- Claim C6: configuration values outside their documented ranges are
silently clamped to the nearest bound (`pingCount` to [1,20], `warmupCount`
to [0,5], `topCount` to [1,10], `timeout` to [1000,30000]), never rejected;
with `pingCount = 100` exactly 20 measurement probes execute per endpoint, and
with `pingCount = 0` or any negative `pingCount` exactly 1. -/
theorem claim_C6_config_clamped_to_nearest_bound :
    (∀ (options : Index.FindFastestOptions) (q : ℚ), options.pingCount = some q →
      (q < 1 → (Index.sanitize options).pingCount = 1) ∧
      (20 < q → (Index.sanitize options).pingCount = 20) ∧
      (1 ≤ q → q ≤ 20 → (Index.sanitize options).pingCount = q)) ∧
    (∀ (options : Index.FindFastestOptions) (q : ℚ), options.warmupCount = some q →
      (q < 0 → (Index.sanitize options).warmupCount = 0) ∧
      (5 < q → (Index.sanitize options).warmupCount = 5) ∧
      (0 ≤ q → q ≤ 5 → (Index.sanitize options).warmupCount = q)) ∧
    (∀ (options : Index.FindFastestOptions) (q : ℚ), options.topCount = some q →
      (q < 1 → (Index.sanitize options).topCount = 1) ∧
      (10 < q → (Index.sanitize options).topCount = 10) ∧
      (1 ≤ q → q ≤ 10 → (Index.sanitize options).topCount = q)) ∧
    (∀ (options : Index.FindFastestOptions) (q : ℚ), options.timeout = some q →
      (q < 1000 → (Index.sanitize options).timeout = 1000) ∧
      (30000 < q → (Index.sanitize options).timeout = 30000) ∧
      (1000 ≤ q → q ≤ 30000 → (Index.sanitize options).timeout = q)) ∧
    (∀ (options : Index.FindFastestOptions)
        (fetched : Option (List Index.EndpointConfig)) (probe : ℕ → ℕ → Time),
      ∀ r ∈ Index.rawResults options fetched probe,
        r.times.length = jsLoopCount (Index.sanitize options).pingCount ∧
        r.warmupTimes.length = jsLoopCount (Index.sanitize options).warmupCount) ∧
    (∀ (options : Index.FindFastestOptions)
        (fetched : Option (List Index.EndpointConfig)) (probe : ℕ → ℕ → Time),
      options.pingCount = some 100 →
      ∀ r ∈ Index.rawResults options fetched probe, r.times.length = 20) ∧
    (∀ (options : Index.FindFastestOptions)
        (fetched : Option (List Index.EndpointConfig)) (probe : ℕ → ℕ → Time)
        (q : ℚ), options.pingCount = some q → q ≤ 0 →
      ∀ r ∈ Index.rawResults options fetched probe, r.times.length = 1) := by
  have hlen : ∀ (options : Index.FindFastestOptions)
      (fetched : Option (List Index.EndpointConfig)) (probe : ℕ → ℕ → Time),
      ∀ r ∈ Index.rawResults options fetched probe,
        r.times.length = jsLoopCount (Index.sanitize options).pingCount ∧
        r.warmupTimes.length = jsLoopCount (Index.sanitize options).warmupCount := by
    intro options fetched probe r hr
    obtain ⟨p, _, rfl⟩ := List.mem_map.mp hr
    constructor <;> simp [Index.pingEndpoint]
  refine ⟨?_, ?_, ?_, ?_, hlen, ?_, ?_⟩
  · intro options q hq
    simpa [Index.sanitize, hq] using clamp_facts 1 20 q (by norm_num)
  · intro options q hq
    simpa [Index.sanitize, hq] using clamp_facts 0 5 q (by norm_num)
  · intro options q hq
    simpa [Index.sanitize, hq] using clamp_facts 1 10 q (by norm_num)
  · intro options q hq
    simpa [Index.sanitize, hq] using clamp_facts 1000 30000 q (by norm_num)
  · intro options fetched probe hq r hr
    have h1 := (hlen options fetched probe r hr).1
    have h2 : (Index.sanitize options).pingCount = 20 := by
      simpa [Index.sanitize, hq] using (clamp_facts 1 20 100 (by norm_num)).2.1 (by norm_num)
    rw [h1, h2]
    decide
  · intro options fetched probe q hq hq0 r hr
    have h1 := (hlen options fetched probe r hr).1
    have h2 : (Index.sanitize options).pingCount = 1 := by
      simpa [Index.sanitize, hq] using
        (clamp_facts 1 20 q (by norm_num)).1 (lt_of_le_of_lt hq0 (by norm_num))
    rw [h1, h2]
    decide

/-- Concrete instantiation of claim C6: `pingCount = 100` clamps to 20 probes,
`pingCount = 0` and `pingCount = -5` clamp to 1. -/
theorem claim_C6_witness :
    (Index.sanitize { pingCount := some 100 }).pingCount = 20 ∧
      (Index.sanitize { pingCount := some 0 }).pingCount = 1 ∧
      (Index.sanitize { pingCount := some (-5) }).pingCount = 1 :=
  ⟨(claim_C6_config_clamped_to_nearest_bound.1 _ 100 rfl).2.1 (by norm_num),
   (claim_C6_config_clamped_to_nearest_bound.1 _ 0 rfl).1 (by norm_num),
   (claim_C6_config_clamped_to_nearest_bound.1 _ (-5) rfl).1 (by norm_num)⟩

/-- Claim C7: a fetched manifest entry is kept iff its `url` is a non-empty
string beginning with the secure-scheme prefix and its `region` is non-empty
(truthy); every failing entry is dropped individually without aborting the
parsing of the remaining entries; and an attempt counts as a parse failure
only when no valid entry remains. -/
theorem claim_C7_manifest_entry_validation :
    (∀ e : Index.RawEntry, Index.keepEntry e = true ↔
      ∃ s, e.url = some (.str s) ∧ s ≠ "" ∧
        Index.strStartsWith s "https://" = true ∧ Index.truthy e.region = true) ∧
    (∀ (xs ys : List Index.RawEntry) (bad : Index.RawEntry),
      Index.keepEntry bad = false →
      (xs ++ bad :: ys).filter Index.keepEntry = (xs ++ ys).filter Index.keepEntry) ∧
    (∀ entries : List Index.RawEntry,
      Index.parseAttempt (.ok (some entries)) = none ↔
        entries.filter Index.keepEntry = []) := by
  refine ⟨?_, ?_, ?_⟩
  · intro e
    obtain ⟨u, rg⟩ := e
    cases u with
    | none => simp [Index.keepEntry, Index.truthy, Index.isStringVal]
    | some v =>
      cases v with
      | str s =>
        simp only [Index.keepEntry, Index.truthy, Index.isStringVal, Index.asStringVal,
          Bool.and_eq_true, Bool.not_eq_true', and_true]
        constructor
        · rintro ⟨⟨hne, hsw⟩, hr⟩
          refine ⟨s, rfl, ?_, hsw, hr⟩
          intro hs
          rw [hs] at hne
          exact absurd hne (by decide)
        · rintro ⟨t, ht, hne, hsw, hr⟩
          obtain rfl : s = t := by injection ht with h1; injection h1
          refine ⟨⟨?_, hsw⟩, hr⟩
          cases he : s.isEmpty
          · rfl
          · exact absurd ((String.isEmpty_iff s).mp he) hne
      | num q => simp [Index.keepEntry, Index.truthy, Index.isStringVal]
      | boolean b => simp [Index.keepEntry, Index.truthy, Index.isStringVal]
      | null => simp [Index.keepEntry, Index.truthy, Index.isStringVal]
  · intro xs ys bad hbad
    rw [List.filter_append, List.filter_append, List.filter_cons_of_neg (by simp [hbad])]
  · intro entries
    cases hfe : entries.filter Index.keepEntry with
    | nil => simp [Index.parseAttempt, hfe]
    | cons a l => simp [Index.parseAttempt, hfe]

/-- Concrete instantiation of claim C7: an insecure-scheme entry is dropped
while the surrounding entries survive. -/
theorem claim_C7_witness :
    Index.keepEntry ⟨some (.str "http://x.example"), some (.str "r")⟩ = false ∧
      ([(⟨some (.str "https://a.example"), some (.str "r1")⟩ : Index.RawEntry)] ++
          (⟨some (.str "http://x.example"), some (.str "r")⟩ : Index.RawEntry) ::
            ([] : List Index.RawEntry)).filter Index.keepEntry =
        ([(⟨some (.str "https://a.example"), some (.str "r1")⟩ : Index.RawEntry)] ++
          ([] : List Index.RawEntry)).filter Index.keepEntry :=
  ⟨by decide, claim_C7_manifest_entry_validation.2.1 _ _ _ (by decide)⟩

/-- Claim C8: the manifest fetch makes at most `retries + 1` attempts, sleeps
`attemptIndex * 500` ms before each retry and not before the first attempt,
stops at the first attempt that yields at least one valid endpoint (returning
its valid entries), and returns null only after all attempts are exhausted. -/
theorem claim_C8_retry_backoff_schedule :
    (∀ (outcomes : ℕ → Index.FetchOutcome) (retries : ℕ),
      (Index.fetchEndpointsFromUrl outcomes retries).2.2 ≤ retries + 1) ∧
    (∀ (outcomes : ℕ → Index.FetchOutcome) (retries : ℕ),
      (Index.fetchEndpointsFromUrl outcomes retries).2.1 =
        ((List.range (Index.fetchEndpointsFromUrl outcomes retries).2.2).drop 1).map
          (fun k => k * 500)) ∧
    (∀ (outcomes : ℕ → Index.FetchOutcome) (retries j : ℕ)
        (v : List Index.RawEntry), j ≤ retries →
      Index.parseAttempt (outcomes j) = some v →
      (∀ i < j, Index.parseAttempt (outcomes i) = none) →
      (Index.fetchEndpointsFromUrl outcomes retries).1 = some v ∧
        (Index.fetchEndpointsFromUrl outcomes retries).2.2 = j + 1) ∧
    (∀ (outcomes : ℕ → Index.FetchOutcome) (retries : ℕ),
      (Index.fetchEndpointsFromUrl outcomes retries).1 = none →
      (Index.fetchEndpointsFromUrl outcomes retries).2.2 = retries + 1) := by
  refine ⟨?_, ?_, ?_, ?_⟩
  · intro outcomes retries
    exact fetchLoop_attempts_le outcomes (retries + 1) 0
  · intro outcomes retries
    have h := fetchLoop_sleeps outcomes (retries + 1) 0
    rw [← List.range_eq_range'] at h
    rw [Index.fetchEndpointsFromUrl, h, filterMap_range_pos]
  · intro outcomes retries j v hj hsv hprev
    exact fetchLoop_first_success outcomes (retries + 1) 0 j v
      (Nat.lt_succ_of_le hj) (by rwa [Nat.zero_add]) (fun i hi => by
        rw [Nat.zero_add]
        exact hprev i hi)
  · intro outcomes retries
    exact fetchLoop_none_exhausts outcomes (retries + 1) 0

/-- Concrete instantiation of claim C8: a fetch that fails twice (one network
error, one non-2xx) then succeeds on the third attempt yields the manifest's
valid descriptors after sleeps of 500 ms and 1000 ms, in 3 attempts. -/
theorem claim_C8_witness :
    (Index.fetchEndpointsFromUrl
        (fun i => if i = 0 then .err else if i = 1 then .notOk
          else .ok (some [⟨some (.str "https://x.example"), some (.str "region1")⟩]))
        2).1 = some [⟨some (.str "https://x.example"), some (.str "region1")⟩] ∧
      (Index.fetchEndpointsFromUrl
        (fun i => if i = 0 then .err else if i = 1 then .notOk
          else .ok (some [⟨some (.str "https://x.example"), some (.str "region1")⟩]))
        2).2.2 = 3 ∧
      (Index.fetchEndpointsFromUrl
        (fun i => if i = 0 then .err else if i = 1 then .notOk
          else .ok (some [⟨some (.str "https://x.example"), some (.str "region1")⟩]))
        2).2.1 = [500, 1000] := by
  have h3 := claim_C8_retry_backoff_schedule.2.2.1
    (fun i => if i = 0 then .err else if i = 1 then .notOk
      else .ok (some [⟨some (.str "https://x.example"), some (.str "region1")⟩]))
    2 2 [⟨some (.str "https://x.example"), some (.str "region1")⟩]
    (by norm_num) (by decide) (by decide)
  refine ⟨h3.1, h3.2, ?_⟩
  rw [claim_C8_retry_backoff_schedule.2.1, h3.2]
  decide

theorem foldl_applyEvent_get (url : String) :
    ∀ (es : List Part0.CooldownEvent) (m : Part0.CooldownMap),
      (es.foldl Part0.applyEvent m) url =
        es.foldl
          (fun acc e =>
            match e with
            | .failed u t => if u = url then some t else acc
            | .succeeded u => if u = url then none else acc
            | .cleared => none)
          (m url) := by
  intro es
  induction es with
  | nil => intro m; rfl
  | cons e es ih =>
    intro m
    rw [List.foldl_cons, List.foldl_cons, ih]
    congr 1
    cases e with
    | failed u t =>
      show (Part0.markEndpointFailed t u m) url = if u = url then some t else m url
      unfold Part0.markEndpointFailed
      by_cases huu : u = url
      · subst huu; simp
      · rw [if_neg (fun h => huu h.symm), if_neg huu]
    | succeeded u =>
      show (Part0.markEndpointSucceeded u m) url = if u = url then none else m url
      unfold Part0.markEndpointSucceeded Part0.mapDelete
      by_cases huu : u = url
      · subst huu; simp
      · rw [if_neg (fun h => huu h.symm), if_neg huu]
    | cleared => rfl

theorem runEvents_eq_lastFailureTime (url : String) (es : List Part0.CooldownEvent) :
    Part0.runEvents es url = Part0.lastFailureTime url es :=
  foldl_applyEvent_get url es Part0.emptyCooldown

theorem isEndpointInCooldown_true_iff (now : ℤ) (url : String) (m : Part0.CooldownMap) :
    (Part0.isEndpointInCooldown now url m).1 = true ↔
      ∃ t, m url = some t ∧ t ≠ 0 ∧ now - t ≤ Part0.FAILURE_COOLDOWN_MS := by
  unfold Part0.isEndpointInCooldown
  cases hm : m url with
  | none => simp
  | some t =>
    dsimp only
    split_ifs with h0 hlt
    · subst h0
      constructor
      · intro h; exact absurd h (by simp)
      · rintro ⟨t2, ht2, ht2ne, _⟩
        obtain rfl : (0 : ℤ) = t2 := by injection ht2
        exact absurd rfl ht2ne
    · constructor
      · intro h; exact absurd h (by simp)
      · rintro ⟨t2, ht2, _, hle⟩
        obtain rfl : t = t2 := by injection ht2
        exact absurd hle (not_le.mpr hlt)
    · constructor
      · intro _; exact ⟨t, rfl, h0, le_of_not_lt hlt⟩
      · intro _; rfl

/-- Counterexample to claim C9 as stated: the source guards with
`if (!failedAt) return false;`, a JS truthiness test, so a failure recorded at
the falsy timestamp `0` (here `markEndpointFailed("https://u.example")` at
`Date.now() = 0`, queried at `now = 100`, well within 60000 ms and with no
later `markEndpointSucceeded` or `clearCache`) is never in cooldown — the
claimed iff fails at this input. -/
theorem claim_C9_counterexample :
    ¬((Part0.isEndpointInCooldown 100 "https://u.example"
          (Part0.runEvents [Part0.CooldownEvent.failed "https://u.example" 0])).1 = true ↔
      ∃ t, Part0.lastFailureTime "https://u.example"
            [Part0.CooldownEvent.failed "https://u.example" 0] = some t ∧
          (100 : ℤ) - t ≤ Part0.FAILURE_COOLDOWN_MS) := by
  intro h
  have hlhs := h.mpr ⟨0, by decide, by norm_num [Part0.FAILURE_COOLDOWN_MS]⟩
  exact absurd hlhs (by decide)

/-- Claim C9, amended for the source's truthiness guard
`if (!failedAt) return false;` (a failure recorded at the falsy timestamp `0`
is treated as absent): the cooldown tracker keeps an endpoint in cooldown for
exactly 60000 ms — `isEndpointInCooldown` answers true iff a
`markEndpointFailed` for that url was recorded with a nonzero (truthy)
timestamp at most 60000 ms ago with no later `markEndpointSucceeded` or
`clearCache`; a query after the window deletes the stale (nonzero-timestamp)
entry; a `pingUrl` run whose measurements are all `⊤` records the failure and
one with a finite measurement clears it; and while in cooldown `pingUrl`
issues no probes (its value does not depend on the probe oracle) and returns
`minTime = ⊤` with empty `times` and `skipped = true`. -/
theorem claim_C9_failure_cooldown_tracker :
    (∀ (es : List Part0.CooldownEvent) (url : String) (now : ℤ),
      (Part0.isEndpointInCooldown now url (Part0.runEvents es)).1 = true ↔
        ∃ t, Part0.lastFailureTime url es = some t ∧ t ≠ 0 ∧
          now - t ≤ Part0.FAILURE_COOLDOWN_MS) ∧
    (∀ (m : Part0.CooldownMap) (url : String) (now t : ℤ), m url = some t →
      t ≠ 0 → Part0.FAILURE_COOLDOWN_MS < now - t →
      (Part0.isEndpointInCooldown now url m).2 url = none) ∧
    (∀ (url : String) (pc wc : ℚ) (probe : ℕ → Time) (now : ℤ)
        (m : Part0.CooldownMap),
      (Part0.isEndpointInCooldown now url m).1 = false →
      (∀ t ∈ (Part0.pingUrl url pc wc probe now m).1.times, t = ⊤) →
      (Part0.pingUrl url pc wc probe now m).2 url = some now) ∧
    (∀ (url : String) (pc wc : ℚ) (probe : ℕ → Time) (now : ℤ)
        (m : Part0.CooldownMap),
      (Part0.isEndpointInCooldown now url m).1 = false →
      (∃ t ∈ (Part0.pingUrl url pc wc probe now m).1.times, t ≠ ⊤) →
      (Part0.pingUrl url pc wc probe now m).2 url = none) ∧
    (∀ (url : String) (pc wc : ℚ) (probe : ℕ → Time) (now : ℤ)
        (m : Part0.CooldownMap),
      (Part0.isEndpointInCooldown now url m).1 = true →
      (Part0.pingUrl url pc wc probe now m).1 =
        { url := url, minTime := ⊤, times := [], warmupTimes := [],
          skipped := true } ∧
      ∀ probe2 : ℕ → Time,
        Part0.pingUrl url pc wc probe now m = Part0.pingUrl url pc wc probe2 now m) := by
  refine ⟨?_, ?_, ?_, ?_, ?_⟩
  · intro es url now
    rw [isEndpointInCooldown_true_iff, runEvents_eq_lastFailureTime]
  · intro m url now t hm h0 hlt
    unfold Part0.isEndpointInCooldown
    rw [hm]
    dsimp only
    rw [if_neg h0, if_pos hlt]
    simp [Part0.mapDelete]
  · intro url pc wc probe now m hcool hall
    simp only [Part0.pingUrl, hcool, Bool.false_eq_true, if_false] at hall ⊢
    have hallb : ((List.range (jsLoopCount pc)).map
        (fun i => probe (jsLoopCount wc + i))).all (fun t => t == ⊤) = true := by
      rw [List.all_eq_true]
      intro x hx
      simpa using hall x hx
    rw [if_pos (Or.inr hallb)]
    simp [Part0.markEndpointFailed]
  · intro url pc wc probe now m hcool hex
    simp only [Part0.pingUrl, hcool, Bool.false_eq_true, if_false] at hex ⊢
    obtain ⟨t0, ht0mem, ht0⟩ := hex
    have hnonempty : ((List.range (jsLoopCount pc)).map
        (fun i => probe (jsLoopCount wc + i))) ≠ [] := List.ne_nil_of_mem ht0mem
    have hne : ¬((if ((List.range (jsLoopCount pc)).map
          (fun i => probe (jsLoopCount wc + i))).isEmpty then (⊤ : Time)
        else listMin ((List.range (jsLoopCount pc)).map
          (fun i => probe (jsLoopCount wc + i)))) = ⊤ ∨
        (((List.range (jsLoopCount pc)).map
          (fun i => probe (jsLoopCount wc + i))).all (fun t => t == ⊤)) = true) := by
      rintro (hmin | hallb)
      · rw [if_neg (by simpa [List.isEmpty_iff] using hnonempty)] at hmin
        exact ht0 (listMin_eq_top_iff _ |>.mp hmin t0 ht0mem)
      · rw [List.all_eq_true] at hallb
        exact ht0 (by simpa using hallb t0 ht0mem)
    rw [if_neg hne]
    simp [Part0.markEndpointSucceeded, Part0.mapDelete]
  · intro url pc wc probe now m hcool
    constructor
    · simp [Part0.pingUrl, hcool]
    · intro probe2
      simp [Part0.pingUrl, hcool]

/-- Concrete instantiation of amended claim C9: a failure recorded at the
truthy timestamp t = 100 keeps the endpoint in cooldown when queried at
t = 60100 (exactly 60000 ms later). -/
theorem claim_C9_witness :
    (Part0.isEndpointInCooldown 60100 "https://u.example"
        (Part0.runEvents [Part0.CooldownEvent.failed "https://u.example" 100])).1 = true :=
  (claim_C9_failure_cooldown_tracker.1 [Part0.CooldownEvent.failed "https://u.example" 100]
      "https://u.example" 60100).mpr
    ⟨100, by decide, by norm_num, by norm_num [Part0.FAILURE_COOLDOWN_MS]⟩

/-- Claim C10: after a successful remote fetch `getEndpoints` caches the list
for `CACHE_TTL_MS = 300000` ms; a call within the TTL returns the cached list
without performing a network fetch; a call after the TTL whose refetch fails
returns the stale cached list in preference to the hardcoded fallback; and the
hardcoded `NOZOMI_ENDPOINTS` list is returned only when no (non-empty) cache
exists and fetching fails. -/
theorem claim_C10_manifest_cache :
    Part0.CACHE_TTL_MS = 300000 ∧
    (∀ (st0 : Part0.CacheState) (t0 : ℤ) (r : List String),
      Part0.cacheFresh st0 t0 = false → r ≠ [] →
      (Part0.getEndpoints t0 (some r) st0).2.2 =
          ⟨some r, t0 + Part0.CACHE_TTL_MS⟩ ∧
        (Part0.getEndpoints t0 (some r) st0).1 = r ∧
        ∀ (t1 : ℤ) (fr2 : Option (List String)), t1 < t0 + Part0.CACHE_TTL_MS →
          Part0.getEndpoints t1 fr2 (Part0.getEndpoints t0 (some r) st0).2.2 =
            (r, false, (Part0.getEndpoints t0 (some r) st0).2.2)) ∧
    (∀ (st : Part0.CacheState) (now : ℤ) (l : List String)
        (fr : Option (List String)),
      st.cachedEndpoints = some l → l ≠ [] → st.cacheExpiry ≤ now →
      (fr = none ∨ fr = some []) → (Part0.getEndpoints now fr st).1 = l) ∧
    (∀ (st : Part0.CacheState) (now : ℤ) (fr : Option (List String)),
      (st.cachedEndpoints = none ∨ st.cachedEndpoints = some []) →
      (fr = none ∨ fr = some []) →
      (Part0.getEndpoints now fr st).1 = Part0.NOZOMI_ENDPOINTS) ∧
    (∀ (st : Part0.CacheState) (now : ℤ) (fr : Option (List String))
        (l : List String),
      st.cachedEndpoints = some l → l ≠ [] →
      (Part0.getEndpoints now fr st).1 = l ∨
        ∃ rm, fr = some rm ∧ (Part0.getEndpoints now fr st).1 = rm) := by
  refine ⟨by norm_num [Part0.CACHE_TTL_MS], ?_, ?_, ?_, ?_⟩
  · intro st0 t0 r hfresh hr
    have hstep : Part0.getEndpoints t0 (some r) st0 =
        (r, true, ⟨some r, t0 + Part0.CACHE_TTL_MS⟩) := by
      unfold Part0.getEndpoints
      rw [if_neg (by simp [hfresh])]
      dsimp only
      rw [if_neg (by simpa [List.isEmpty_iff] using hr)]
    refine ⟨by rw [hstep], by rw [hstep], ?_⟩
    intro t1 fr2 ht1
    rw [hstep]
    unfold Part0.getEndpoints
    rw [if_pos (by simp [Part0.cacheFresh, List.isEmpty_iff, hr, ht1])]
    simp
  · intro st now l fr hcache hl hexp hfail
    unfold Part0.getEndpoints
    rw [if_neg (by simp [Part0.cacheFresh, hcache, not_lt.mpr hexp])]
    rcases hfail with rfl | rfl
    · simp [Part0.staleOrHardcoded, hcache, List.isEmpty_iff, hl]
    · simp [Part0.staleOrHardcoded, hcache, List.isEmpty_iff, hl]
  · intro st now fr hcache hfail
    have hfresh : Part0.cacheFresh st now = false := by
      rcases hcache with h | h <;> simp [Part0.cacheFresh, h]
    unfold Part0.getEndpoints
    rw [if_neg (by simp [hfresh])]
    rcases hfail with rfl | rfl <;> rcases hcache with h | h <;>
      simp [Part0.staleOrHardcoded, h]
  · intro st now fr l hcache hl
    unfold Part0.getEndpoints
    by_cases hfresh : Part0.cacheFresh st now
    · rw [if_pos hfresh]
      left
      simp [hcache]
    · rw [if_neg hfresh]
      cases fr with
      | none => left; simp [Part0.staleOrHardcoded, hcache, List.isEmpty_iff, hl]
      | some remote =>
        dsimp only
        by_cases hrem : remote.isEmpty
        · rw [if_pos hrem]
          left
          simp [Part0.staleOrHardcoded, hcache, List.isEmpty_iff, hl]
        · rw [if_neg hrem]
          right
          exact ⟨remote, rfl, rfl⟩

/-- Concrete instantiation of claim C10: a successful fetch at t = 1000 caches
until t = 301000, and a refetch-free call at t = 200000 serves the cache. -/
theorem claim_C10_witness :
    (Part0.getEndpoints 1000 (some ["https://a.example"]) ⟨none, 0⟩).2.2 =
        ⟨some ["https://a.example"], 1000 + Part0.CACHE_TTL_MS⟩ ∧
      (Part0.getEndpoints 1000 (some ["https://a.example"]) ⟨none, 0⟩).1 =
        ["https://a.example"] ∧
      Part0.getEndpoints 200000 none
          (Part0.getEndpoints 1000 (some ["https://a.example"]) ⟨none, 0⟩).2.2 =
        (["https://a.example"], false,
          (Part0.getEndpoints 1000 (some ["https://a.example"]) ⟨none, 0⟩).2.2) := by
  have h := claim_C10_manifest_cache.2.1 ⟨none, 0⟩ 1000 ["https://a.example"] rfl
    (by decide)
  exact ⟨h.1, h.2.1, h.2.2 200000 none (by norm_num [Part0.CACHE_TTL_MS])⟩

/-- Concrete instantiation of claim C2: a transport on which every request
fails yields exactly the synthetic auto-routed result. -/
theorem claim_C2_witness :
    Index.findFastestEndpoints {} (some []) (fun _ _ => (⊤ : Time)) =
      [{ url := Index.NOZOMI_AUTO_ENDPOINT, region := "auto", minTime := ⊤,
         times := [], warmupTimes := [] }] :=
  claim_C2_all_unreachable_yields_single_auto {} (some []) _ (fun _ _ => rfl)

end Nozomi
